import Mathlib

/-
Shallow embedding of `retry-simple` (src/src/index.ts): the `retry` control
loop, its delay computation (fixed / exponential backoff / jitter / cap) and
its per-attempt timeout race, together with proofs about the specification's
claims.

Modelling choices:
* Durations and delays are rationals (JS numbers; the claims involve only
  exact arithmetic on them).
* The wrapped operation is modelled as a function from the 1-based attempt
  number to an `AttemptBehavior`: how long the returned promise takes to
  settle and whether it resolves or rejects.  `Math.random()` is modelled as
  a stream `rand : Nat → ℚ` of samples in `[0, 1)`, indexed by the attempt
  number whose retry delay consumes the sample.
* Errors reaching the `catch` block are either the operation's own error or
  the executor-synthesized `Error("Operation timed out")`; the final
  fallback is `Error("Retry attempts exhausted.")`.  These are the three
  constructors of `RErr`.
* The `onRetry` callback is modelled by recording its calls (error and
  attempt number, in order) in the returned trace; `shouldRetry` is a
  boolean-valued function carried in the configuration, defaulting to the
  always-true predicate, exactly as in the source's destructuring defaults.
* JS truthiness: the source guards `timeout ? … : …` and
  `if (maxDelay && waitTime > maxDelay)`, so a zero `timeout` or a zero
  `maxDelay` behaves as if unset.  The embedding tests `t ≠ 0` / `m ≠ 0`
  accordingly.
-/

namespace RetrySimple

/-- Errors observable from the retry executor: an error produced by the
wrapped operation, the synthesized timeout error, or the synthesized
exhaustion error. -/
inductive RErr (E : Type) : Type where
  | opError (e : E) : RErr E
  | timedOut : RErr E
  | exhausted : RErr E
deriving DecidableEq, Repr

/-- Message of the executor-synthesized errors (`new Error("Operation timed
out")` and `new Error("Retry attempts exhausted.")`); operation errors are
opaque to the executor. -/
def RErr.message {E : Type} : RErr E → Option String
  | RErr.opError _ => none
  | RErr.timedOut => some "Operation timed out"
  | RErr.exhausted => some "Retry attempts exhausted."

/-- Behaviour of one invocation of the wrapped operation `fn`: how long the
returned promise takes to settle and whether it resolves or rejects. -/
structure AttemptBehavior (E A : Type) where
  duration : ℚ
  outcome : Except E A

/-- The destructured `options` of `retry`, with the source's defaults
(`retries = 3, delay = 1000, backoff = false, jitter = false`,
`maxDelay`/`timeout` absent, `shouldRetry = () => true`).  `retries` is an
`Int` because the source performs no bounds check and negative values are
claim-relevant. -/
structure RetryConfig (E : Type) where
  retries : Int := 3
  delay : ℚ := 1000
  backoff : Bool := false
  jitter : Bool := false
  maxDelay : Option ℚ := none
  timeout : Option ℚ := none
  shouldRetry : RErr E → Nat → Bool := fun _ _ => true

/-- The default retry predicate `() => true`. -/
def defaultShouldRetry {E : Type} : RErr E → Nat → Bool := fun _ _ => true

/-- Outcome of one attempt after the optional `Promise.race` against the
timeout timer: if `timeout` is set and truthy and the timer (firing at
`t` ms) beats the operation (settling at `b.duration` ms), the attempt
rejects with the timeout error; otherwise the operation's own settlement is
used. -/
def racedOutcome {E A : Type} (t? : Option ℚ) (b : AttemptBehavior E A) :
    Except (RErr E) A :=
  match t? with
  | some t =>
      if t ≠ 0 ∧ t < b.duration then Except.error RErr.timedOut
      else b.outcome.mapError RErr.opError
  | none => b.outcome.mapError RErr.opError

/-- The jitter factor `Math.random() * 0.4 + 0.8` for a random sample `r`. -/
def jitterFactor (r : ℚ) : ℚ := r * (2 / 5) + 4 / 5

/-- The delay value after backoff doubling and the `maxDelay` cap, before
jitter: `let waitTime = currentDelay; if (backoff) waitTime *= 2;
if (maxDelay && waitTime > maxDelay) waitTime = maxDelay`. -/
def preJitterDelay {E : Type} (cfg : RetryConfig E) (currentDelay : ℚ) : ℚ :=
  let w1 := if cfg.backoff then currentDelay * 2 else currentDelay
  match cfg.maxDelay with
  | some m => if m ≠ 0 ∧ m < w1 then m else w1
  | none => w1

/-- The full delay computation of one retry as the source performs it:
backoff doubling, cap, then jitter, with `r` the `Math.random()` sample used
for this retry. -/
def computeWait {E : Type} (cfg : RetryConfig E) (currentDelay r : ℚ) : ℚ :=
  if cfg.jitter then preJitterDelay cfg currentDelay * jitterFactor r
  else preJitterDelay cfg currentDelay

/-- Observable trace of one `retry` call: the final result, how many times
`fn` was invoked, the successive wait durations, and the `onRetry` calls
(error, attempt number) in order. -/
structure Trace (E A : Type) where
  result : Except (RErr E) A
  invocations : Nat
  waits : List ℚ
  onRetryCalls : List (RErr E × Nat)

/-- The `while (attempt <= retries)` loop of `retry`, entered with the
current value of `attempt` (incremented to `attempt + 1` at the top of the
body) and the carried `currentDelay`.  Each body entry invokes `fn` once;
on success the result is returned immediately; on failure
`isLastAttempt = attempt > retries` and
`canRetry = !isLastAttempt && shouldRetry(error, attempt)` decide between
rethrowing the error and recording the `onRetry` call, waiting the computed
delay, and carrying that delay (`currentDelay = waitTime`) into the next
iteration.  Falling out of the loop raises the exhaustion error. -/
def retryLoop {E A : Type} (cfg : RetryConfig E)
    (op : Nat → AttemptBehavior E A) (rand : Nat → ℚ)
    (attempt : Nat) (currentDelay : ℚ) : Trace E A :=
  if h : (attempt : Int) ≤ cfg.retries then
    match racedOutcome cfg.timeout (op (attempt + 1)) with
    | Except.ok v => ⟨Except.ok v, 1, [], []⟩
    | Except.error e =>
        let isLastAttempt : Bool := decide ((attempt : Int) + 1 > cfg.retries)
        let canRetry : Bool := !isLastAttempt && cfg.shouldRetry e (attempt + 1)
        if canRetry then
          let waitTime : ℚ := computeWait cfg currentDelay (rand (attempt + 1))
          let rest := retryLoop cfg op rand (attempt + 1) waitTime
          ⟨rest.result, rest.invocations + 1, waitTime :: rest.waits,
            (e, attempt + 1) :: rest.onRetryCalls⟩
        else ⟨Except.error e, 1, [], []⟩
  else ⟨Except.error RErr.exhausted, 0, [], []⟩
termination_by (cfg.retries + 1 - (attempt : Int)).toNat
decreasing_by omega

/-- One call of `retry`: run the loop from `attempt = 0` with
`currentDelay = config.delay`. -/
def retryRun {E A : Type} (cfg : RetryConfig E)
    (op : Nat → AttemptBehavior E A) (rand : Nat → ℚ) : Trace E A :=
  retryLoop cfg op rand 0 cfg.delay

/-- The sequence of wait durations produced by `k` consecutive retries
starting at attempt number `a + 1` with carried delay `d`. -/
def waitsFrom {E : Type} (cfg : RetryConfig E) (rand : Nat → ℚ) :
    Nat → ℚ → Nat → List ℚ
  | _, _, 0 => []
  | a, d, k + 1 =>
      computeWait cfg d (rand (a + 1)) ::
        waitsFrom cfg rand (a + 1) (computeWait cfg d (rand (a + 1))) k

/-- The sequence of `onRetry` calls produced by `k` consecutive retried
failures starting at attempt number `a + 1`, when attempt `n` fails with
`errs n`. -/
def onRetrySeq {E : Type} (errs : Nat → RErr E) :
    Nat → Nat → List (RErr E × Nat)
  | _, 0 => []
  | a, k + 1 => (errs (a + 1), a + 1) :: onRetrySeq errs (a + 1) k

/-- Modelled from the spec (§4.3 Delay Computation), for comparison with the
source's `computeWait`: steps 2 and 3 of the reference definition, "if
backoff is true: currentDelay *= 2; if maxDelay is set and
currentDelay > maxDelay: clamp currentDelay = maxDelay".  Note the clamp is
conditioned only on `maxDelay` being set, with no truthiness test. -/
def specPreJitter {E : Type} (cfg : RetryConfig E) (currentDelay : ℚ) : ℚ :=
  let d1 := if cfg.backoff then currentDelay * 2 else currentDelay
  match cfg.maxDelay with
  | some m => if d1 > m then m else d1
  | none => d1

/-- Modelled from the spec (§4.3 Delay Computation), the full reference
definition `computeNextDelay`: double if backoff, clamp whenever `maxDelay`
is set, then multiply by the jitter factor if jitter is true. -/
def computeNextDelaySpec {E : Type} (cfg : RetryConfig E)
    (currentDelay r : ℚ) : ℚ :=
  if cfg.jitter then specPreJitter cfg currentDelay * jitterFactor r
  else specPreJitter cfg currentDelay

/-- An operation that rejects immediately on every attempt. -/
def opAlwaysFail : Nat → AttemptBehavior Unit Unit :=
  fun _ => ⟨0, Except.error ()⟩

/-- An operation whose attempt `n` rejects with the error payload `n`. -/
def opErrSeq : Nat → AttemptBehavior Nat Unit :=
  fun n => ⟨0, Except.error n⟩

/-- The per-attempt errors of `opErrSeq` as seen inside the executor. -/
def errsSeq : Nat → RErr Nat := fun n => RErr.opError n

/-- An operation failing on attempt 1 and succeeding from attempt 2 on. -/
def opFailThenOk : Nat → AttemptBehavior Unit Unit :=
  fun n => ⟨0, if n = 1 then Except.error () else Except.ok ()⟩

/-- An operation that resolves, but only after 100 ms. -/
def opSlow : Nat → AttemptBehavior Unit Unit :=
  fun _ => ⟨100, Except.ok ()⟩

/-- A degenerate random stream (every sample 0). -/
def randZero : Nat → ℚ := fun _ => 0

/-- The configuration of the spec's delay-sequence example:
`delay = 100, backoff = true, retries = 3`, jitter disabled. -/
def cfgC1 : RetryConfig Unit := { retries := 3, delay := 100, backoff := true }

/-- A configuration with two retries and otherwise default options. -/
def cfgC2 : RetryConfig Nat := { retries := 2 }

/-- A configuration with `maxDelay` set to the (falsy) value 0. -/
def cfgC3 : RetryConfig Unit := { maxDelay := some 0 }

/-- The configuration of the spec's cap-interaction example:
`delay = 1000, backoff = true, maxDelay = 1500`. -/
def cfgC3b : RetryConfig Unit :=
  { delay := 1000, backoff := true, maxDelay := some 1500 }

/-- A configuration with a negative retry budget. -/
def cfgNeg : RetryConfig Unit := { retries := -1 }

/-- A configuration whose retry predicate always declines. -/
def cfgC6 : RetryConfig Unit :=
  { retries := 4, shouldRetry := fun _ _ => false }

/-- The configuration of the spec's success-short-circuit example
(`retries = 5`, all else default). -/
def cfgC7 : RetryConfig Unit := { retries := 5 }

/-- A configuration with jitter enabled and otherwise default options. -/
def cfgC8 : RetryConfig Unit := { jitter := true }

/-- A configuration with a 50 ms per-attempt timeout and two retries. -/
def cfgC9 : RetryConfig Unit := { retries := 2, timeout := some 50 }

/-- A retry predicate accepting exactly the attempt numbers up to 3. -/
def srLe3 : RErr Unit → Nat → Bool := fun _ n => decide ((n : Int) ≤ 3)

/-- When every attempt fails (attempt `n` with error `errs n`) and the
predicate always accepts, the loop started at `attempt = a` with
`cfg.retries = a + k` performs exactly `k + 1` invocations, finally throws
the last attempt's error, waits `waitsFrom … k`, and records the `onRetry`
calls `onRetrySeq errs a k`. -/
lemma retryLoop_allFail {E A : Type} (cfg : RetryConfig E)
    (op : Nat → AttemptBehavior E A) (rand : Nat → ℚ) (errs : Nat → RErr E)
    (hop : ∀ n, racedOutcome cfg.timeout (op n) = Except.error (errs n))
    (hsr : ∀ e n, cfg.shouldRetry e n = true) :
    ∀ (k a : Nat) (d : ℚ), cfg.retries = (a : Int) + (k : Int) →
      retryLoop cfg op rand a d =
        ⟨Except.error (errs (a + k + 1)), k + 1, waitsFrom cfg rand a d k,
          onRetrySeq errs a k⟩ := by
  intro k
  induction k with
  | zero =>
      intro a d hret
      rw [retryLoop, dif_pos (by omega : ((a : Nat) : Int) ≤ cfg.retries),
        hop (a + 1)]
      have hlast : decide ((a : Int) + 1 > cfg.retries) = true := by
        simp; omega
      simp [hlast, waitsFrom, onRetrySeq]
  | succ k ih =>
      intro a d hret
      rw [retryLoop, dif_pos (by omega : ((a : Nat) : Int) ≤ cfg.retries),
        hop (a + 1)]
      have hlast : decide ((a : Int) + 1 > cfg.retries) = false := by
        simp; push_cast at hret ⊢; omega
      have hrec := ih (a + 1) (computeWait cfg d (rand (a + 1)))
        (by push_cast at hret ⊢; omega)
      simp only [hlast, hsr, Bool.not_false, Bool.true_and, if_pos]
      rw [hrec]
      simp only [waitsFrom, onRetrySeq, Trace.mk.injEq]
      refine ⟨by congr 2; omega, trivial, trivial, trivial⟩

/-- A successful attempt returns its value at once, with no wait and no
`onRetry` call. -/
lemma retryLoop_success {E A : Type} (cfg : RetryConfig E)
    (op : Nat → AttemptBehavior E A) (rand : Nat → ℚ) (a : Nat) (d : ℚ)
    (v : A) (ha : (a : Int) ≤ cfg.retries)
    (hok : racedOutcome cfg.timeout (op (a + 1)) = Except.ok v) :
    retryLoop cfg op rand a d = ⟨Except.ok v, 1, [], []⟩ := by
  rw [retryLoop, dif_pos ha, hok]

/-- The timeout race never produces the exhaustion error. -/
lemma racedOutcome_ne_exhausted {E A : Type} (t? : Option ℚ)
    (b : AttemptBehavior E A) :
    racedOutcome t? b ≠ Except.error RErr.exhausted := by
  rcases t? with _ | t <;> rcases hb : b.outcome with e | v <;>
    simp [racedOutcome, Except.mapError, hb] <;> split <;> simp

/-- As long as the loop condition held on entry, the loop resolves with a
success value or an attempt's error, never with the exhaustion fallback. -/
lemma retryLoop_result_ne_exhausted {E A : Type} (cfg : RetryConfig E)
    (op : Nat → AttemptBehavior E A) (rand : Nat → ℚ) :
    ∀ (k a : Nat) (d : ℚ), cfg.retries = (a : Int) + (k : Int) →
      (retryLoop cfg op rand a d).result ≠ Except.error RErr.exhausted := by
  intro k
  induction k with
  | zero =>
      intro a d hret
      rcases hres : racedOutcome cfg.timeout (op (a + 1)) with e | v
      · have hne : e ≠ RErr.exhausted := by
          intro hx
          exact racedOutcome_ne_exhausted cfg.timeout (op (a + 1))
            (by rw [hres, hx])
        rw [retryLoop, dif_pos (by omega : ((a : Nat) : Int) ≤ cfg.retries),
          hres]
        have hlast : decide ((a : Int) + 1 > cfg.retries) = true := by
          simp; omega
        simp [hlast, hne]
      · rw [retryLoop, dif_pos (by omega : ((a : Nat) : Int) ≤ cfg.retries),
          hres]
        simp
  | succ k ih =>
      intro a d hret
      rcases hres : racedOutcome cfg.timeout (op (a + 1)) with e | v
      · have hne : e ≠ RErr.exhausted := by
          intro hx
          exact racedOutcome_ne_exhausted cfg.timeout (op (a + 1))
            (by rw [hres, hx])
        rw [retryLoop, dif_pos (by omega : ((a : Nat) : Int) ≤ cfg.retries),
          hres]
        have hlast : decide ((a : Int) + 1 > cfg.retries) = false := by
          simp; push_cast at hret ⊢; omega
        rcases hsr : cfg.shouldRetry e (a + 1) with _ | _
        · simp [hlast, hsr, hne]
        · simp only [hlast, hsr, Bool.not_false, Bool.true_and, if_pos]
          exact ih (a + 1) (computeWait cfg d (rand (a + 1)))
            (by push_cast at hret ⊢; omega)
      · rw [retryLoop, dif_pos (by omega : ((a : Nat) : Int) ≤ cfg.retries),
          hres]
        simp

/-- Replacing the retry predicate by one that agrees on all attempt numbers
`≤ retries` leaves the loop's behaviour unchanged: `canRetry` short-circuits
on `isLastAttempt` before consulting the predicate, so its value at the
final permitted attempt never matters. -/
lemma retryLoop_shouldRetry_congr {E A : Type} (cfg : RetryConfig E)
    (sr2 : RErr E → Nat → Bool) (op : Nat → AttemptBehavior E A)
    (rand : Nat → ℚ)
    (hagree : ∀ (e : RErr E) (n : Nat),
      ((n : Int) ≤ cfg.retries) → cfg.shouldRetry e n = sr2 e n) :
    ∀ (k a : Nat) (d : ℚ), cfg.retries = (a : Int) + (k : Int) →
      retryLoop cfg op rand a d =
        retryLoop { cfg with shouldRetry := sr2 } op rand a d := by
  have hcw : ∀ (d r : ℚ),
      computeWait { cfg with shouldRetry := sr2 } d r = computeWait cfg d r :=
    fun _ _ => rfl
  intro k
  induction k with
  | zero =>
      intro a d hret
      rcases hres : racedOutcome cfg.timeout (op (a + 1)) with e | v <;>
        rw [retryLoop, dif_pos (by omega : ((a : Nat) : Int) ≤ cfg.retries),
            hres] <;>
        rw [retryLoop] <;>
        rw [show ({ cfg with shouldRetry := sr2 } : RetryConfig E).timeout =
          cfg.timeout from rfl] <;>
        rw [dif_pos (by simp; omega :
          ((a : Nat) : Int) ≤ ({ cfg with shouldRetry := sr2 } :
            RetryConfig E).retries), hres]
      have hlast : decide ((a : Int) + 1 > cfg.retries) = true := by
        simp; omega
      simp [hlast]
  | succ k ih =>
      intro a d hret
      rcases hres : racedOutcome cfg.timeout (op (a + 1)) with e | v <;>
        rw [retryLoop, dif_pos (by omega : ((a : Nat) : Int) ≤ cfg.retries),
            hres] <;>
        rw [retryLoop] <;>
        rw [show ({ cfg with shouldRetry := sr2 } : RetryConfig E).timeout =
          cfg.timeout from rfl] <;>
        rw [dif_pos (by simp; omega :
          ((a : Nat) : Int) ≤ ({ cfg with shouldRetry := sr2 } :
            RetryConfig E).retries), hres]
      have hlast : decide ((a : Int) + 1 > cfg.retries) = false := by
        simp; push_cast at hret ⊢; omega
      have hag : cfg.shouldRetry e (a + 1) = sr2 e (a + 1) :=
        hagree e (a + 1) (by push_cast at hret ⊢; omega)
      have hrec := ih (a + 1) (computeWait cfg d (rand (a + 1)))
        (by push_cast at hret ⊢; omega)
      rcases hsr : sr2 e (a + 1) with _ | _
      · simp [hlast, hag, hsr]
      · simp [hlast, hag, hsr, hcw, hrec]

/-- Every `onRetry` call recorded by the loop carries an attempt number
strictly above the entry attempt counter and at most `retries`. -/
lemma retryLoop_onRetry_bounds {E A : Type} (cfg : RetryConfig E)
    (op : Nat → AttemptBehavior E A) (rand : Nat → ℚ) :
    ∀ (k a : Nat) (d : ℚ), cfg.retries = (a : Int) + (k : Int) →
      ∀ p ∈ (retryLoop cfg op rand a d).onRetryCalls,
        a + 1 ≤ p.2 ∧ (p.2 : Int) ≤ cfg.retries := by
  intro k
  induction k with
  | zero =>
      intro a d hret
      rcases hres : racedOutcome cfg.timeout (op (a + 1)) with e | v <;>
        rw [retryLoop, dif_pos (by omega : ((a : Nat) : Int) ≤ cfg.retries),
          hres]
      · have hlast : decide ((a : Int) + 1 > cfg.retries) = true := by
          simp; omega
        simp [hlast]
      · simp
  | succ k ih =>
      intro a d hret
      rcases hres : racedOutcome cfg.timeout (op (a + 1)) with e | v <;>
        rw [retryLoop, dif_pos (by omega : ((a : Nat) : Int) ≤ cfg.retries),
          hres]
      · have hlast : decide ((a : Int) + 1 > cfg.retries) = false := by
          simp; push_cast at hret ⊢; omega
        rcases hsr : cfg.shouldRetry e (a + 1) with _ | _
        · simp [hlast, hsr]
        · simp only [hlast, hsr, Bool.not_false, Bool.true_and, if_pos]
          intro p hp
          simp only [List.mem_cons] at hp
          rcases hp with hp | hp
          · subst hp
            refine ⟨le_refl _, ?_⟩
            push_cast at hret ⊢
            omega
          · have := ih (a + 1) (computeWait cfg d (rand (a + 1)))
              (by push_cast at hret ⊢; omega) p hp
            exact ⟨by omega, this.2⟩
      · simp

/-- C1 (counterexample to the claim as stated): with
`delay = 100, backoff = true, retries = 3`, jitter disabled, and a
permanently failing operation, the successive wait durations are NOT
`100, 200, 400`: the source doubles `currentDelay` before the first wait,
so they are `200, 400, 800`. -/
theorem claim_c1_counterexample :
    (retryRun cfgC1 opAlwaysFail randZero).waits ≠ [100, 200, 400] := by
  have h := retryLoop_allFail cfgC1 opAlwaysFail randZero
    (fun _ => RErr.opError ()) (fun _ => rfl) (fun _ _ => rfl) 3 0 cfgC1.delay
    (by norm_num [cfgC1])
  rw [retryRun, h]
  norm_num [waitsFrom, computeWait, preJitterDelay, cfgC1]

/-- C1 (amended): for a permanently failing operation run with
`delay = 100, backoff = true, retries = 3` and jitter disabled, the
successive wait durations are exactly `200, 400, 800` milliseconds — the
backoff doubling is applied before every wait, including the first retry. -/
theorem claim_c1 {E A : Type} (cfg : RetryConfig E)
    (op : Nat → AttemptBehavior E A) (rand : Nat → ℚ) (errs : Nat → RErr E)
    (hret : cfg.retries = 3) (hdelay : cfg.delay = 100)
    (hb : cfg.backoff = true) (hj : cfg.jitter = false)
    (hmax : cfg.maxDelay = none)
    (hsr : cfg.shouldRetry = defaultShouldRetry)
    (hop : ∀ n, racedOutcome cfg.timeout (op n) = Except.error (errs n)) :
    (retryRun cfg op rand).waits = [200, 400, 800] := by
  have h := retryLoop_allFail cfg op rand errs hop
    (by simp [hsr, defaultShouldRetry]) 3 0 cfg.delay (by rw [hret]; norm_num)
  rw [retryRun, h]
  norm_num [waitsFrom, computeWait, preJitterDelay, hj, hb, hmax, hdelay]

/-- C1 witness: the amended delay sequence evaluated on a concrete run. -/
theorem claim_c1_witness :
    (retryRun cfgC1 opAlwaysFail randZero).waits = [200, 400, 800] :=
  claim_c1 cfgC1 opAlwaysFail randZero (fun _ => RErr.opError ())
    rfl rfl rfl rfl rfl rfl (fun _ => rfl)

/-- C2: for every configuration with `retries = R ≥ 0`, the default
always-true `shouldRetry` and an operation failing on every attempt, the
operation is invoked exactly `R + 1` times and the error finally thrown is
the one produced by the last (`R + 1`-th) attempt. -/
theorem claim_c2 {E A : Type} (cfg : RetryConfig E)
    (op : Nat → AttemptBehavior E A) (rand : Nat → ℚ) (errs : Nat → RErr E)
    (R : Nat) (hret : cfg.retries = (R : Int))
    (hsr : cfg.shouldRetry = defaultShouldRetry)
    (hop : ∀ n, racedOutcome cfg.timeout (op n) = Except.error (errs n)) :
    (retryRun cfg op rand).invocations = R + 1 ∧
    (retryRun cfg op rand).result = Except.error (errs (R + 1)) := by
  have h := retryLoop_allFail cfg op rand errs hop
    (by simp [hsr, defaultShouldRetry]) R 0 cfg.delay (by omega)
  rw [retryRun, h]
  simp

/-- C2 witness: with `retries = 2` and attempt `n` failing with error `n`,
three invocations occur and the attempt-3 error propagates. -/
theorem claim_c2_witness :
    (retryRun cfgC2 opErrSeq randZero).invocations = 3 ∧
    (retryRun cfgC2 opErrSeq randZero).result =
      Except.error (RErr.opError 3) :=
  claim_c2 cfgC2 opErrSeq randZero errsSeq 2 rfl rfl (fun _ => rfl)

/-- C3 (counterexample to the claim as stated): the source's delay step
differs from the spec's reference definition when `maxDelay` is set to the
falsy value `0`: the source skips the clamp (`maxDelay &&` is false) while
the reference clamps to 0. -/
theorem claim_c3_counterexample :
    computeWait cfgC3 100 0 ≠ computeNextDelaySpec cfgC3 100 0 := by
  norm_num [computeWait, computeNextDelaySpec, preJitterDelay, specPreJitter,
    cfgC3]

/-- C3 (amended): one step of delay computation equals the reference
definition (double if backoff, clamp, then jitter) whenever `maxDelay` is
not set to the truthiness-exempt value 0; with
`delay = 1000, backoff = true, maxDelay = 1500` the second retry's
pre-jitter delay is 1500; and the post-jitter result is both the wait
duration of the retry and the `currentDelay` carried into the next
iteration's doubling. -/
theorem claim_c3 :
    (∀ (E : Type) (cfg : RetryConfig E) (d r : ℚ),
        (∀ m, cfg.maxDelay = some m → m ≠ 0) →
        computeWait cfg d r = computeNextDelaySpec cfg d r) ∧
    (∀ (E : Type) (cfg : RetryConfig E) (r : ℚ),
        cfg.delay = 1000 → cfg.backoff = true → cfg.maxDelay = some 1500 →
        0 ≤ r → r < 1 →
        preJitterDelay cfg (computeWait cfg cfg.delay r) = 1500) ∧
    (∀ (E A : Type) (cfg : RetryConfig E) (op : Nat → AttemptBehavior E A)
        (rand : Nat → ℚ) (a : Nat) (d : ℚ) (e : RErr E),
        racedOutcome cfg.timeout (op (a + 1)) = Except.error e →
        ((a : Int) + 1 ≤ cfg.retries) →
        cfg.shouldRetry e (a + 1) = true →
        retryLoop cfg op rand a d =
          ⟨(retryLoop cfg op rand (a + 1)
              (computeWait cfg d (rand (a + 1)))).result,
           (retryLoop cfg op rand (a + 1)
              (computeWait cfg d (rand (a + 1)))).invocations + 1,
           computeWait cfg d (rand (a + 1)) ::
             (retryLoop cfg op rand (a + 1)
               (computeWait cfg d (rand (a + 1)))).waits,
           (e, a + 1) ::
             (retryLoop cfg op rand (a + 1)
               (computeWait cfg d (rand (a + 1)))).onRetryCalls⟩) := by
  refine ⟨?_, ?_, ?_⟩
  · intro E cfg d r hmax
    have hpre : preJitterDelay cfg d = specPreJitter cfg d := by
      rcases hmd : cfg.maxDelay with _ | m
      · simp [preJitterDelay, specPreJitter, hmd]
      · have hm : m ≠ 0 := hmax m hmd
        simp only [preJitterDelay, specPreJitter, hmd]
        by_cases hlt : m < (if cfg.backoff = true then d * 2 else d)
        · rw [if_pos ⟨hm, hlt⟩, if_pos hlt]
        · rw [if_neg (fun hc => hlt hc.2), if_neg hlt]
    rw [computeWait, computeNextDelaySpec, hpre]
  · intro E cfg r hdelay hb hmax hr0 hr1
    have hw : computeWait cfg cfg.delay r =
        if cfg.jitter then 1500 * jitterFactor r else 1500 := by
      have hp : preJitterDelay cfg cfg.delay = 1500 := by
        simp only [preJitterDelay, hb, hdelay, hmax]
        norm_num
      rw [computeWait, hp]
    rcases hj : cfg.jitter with _ | _
    · rw [hw, hj, if_neg (by simp)]
      simp only [preJitterDelay, hb, hmax]
      norm_num
    · rw [hw, hj, if_pos rfl]
      simp only [preJitterDelay, hb, hmax]
      have hgt : (1500 : ℚ) < 1500 * jitterFactor r * 2 := by
        rw [jitterFactor]
        have hexp : (1500 : ℚ) * (r * (2 / 5) + 4 / 5) * 2 =
            1200 * r + 2400 := by ring
        rw [hexp]
        linarith
      rw [if_pos ⟨by norm_num, hgt⟩]
  · intro E A cfg op rand a d e hres ha hsr
    rw [retryLoop, dif_pos (by omega), hres]
    have hlast : decide ((a : Int) + 1 > cfg.retries) = false := by
      simp; omega
    simp [hlast, hsr]

/-- C3 witness: the three parts of the amended claim at concrete inputs. -/
theorem claim_c3_witness :
    (computeWait (cfgC7 : RetryConfig Unit) 100 0 =
      computeNextDelaySpec cfgC7 100 0) ∧
    (preJitterDelay cfgC3b (computeWait cfgC3b cfgC3b.delay 0) = 1500) ∧
    (retryLoop cfgC1 opAlwaysFail randZero 0 100 =
      ⟨(retryLoop cfgC1 opAlwaysFail randZero 1
          (computeWait cfgC1 100 (randZero 1))).result,
       (retryLoop cfgC1 opAlwaysFail randZero 1
          (computeWait cfgC1 100 (randZero 1))).invocations + 1,
       computeWait cfgC1 100 (randZero 1) ::
         (retryLoop cfgC1 opAlwaysFail randZero 1
           (computeWait cfgC1 100 (randZero 1))).waits,
       (RErr.opError (), 1) ::
         (retryLoop cfgC1 opAlwaysFail randZero 1
           (computeWait cfgC1 100 (randZero 1))).onRetryCalls⟩) :=
  ⟨claim_c3.1 Unit cfgC7 100 0 (fun m hm => by simp [cfgC7] at hm),
   claim_c3.2.1 Unit cfgC3b 0 rfl rfl rfl (by norm_num) (by norm_num),
   claim_c3.2.2 Unit Unit cfgC1 opAlwaysFail randZero 0 100 (RErr.opError ())
     rfl (by norm_num [cfgC1]) rfl⟩

/-- C4 (counterexample to the claim as stated): with `retries = -1` the
operation is not invoked exactly once — it is never invoked at all, because
the loop condition `attempt <= retries` fails immediately at
`attempt = 0`. -/
theorem claim_c4_counterexample :
    (retryRun cfgNeg opAlwaysFail randZero).invocations ≠ 1 := by
  rw [retryRun, retryLoop, dif_neg (by norm_num [cfgNeg])]
  norm_num

/-- C4 (amended): for every configuration with a negative `retries` value
the operation is never invoked (zero invocations) and `retry` fails with the
exhaustion error. -/
theorem claim_c4 {E A : Type} (cfg : RetryConfig E)
    (op : Nat → AttemptBehavior E A) (rand : Nat → ℚ)
    (h : cfg.retries < 0) :
    (retryRun cfg op rand).invocations = 0 ∧
    (retryRun cfg op rand).result = Except.error RErr.exhausted := by
  rw [retryRun, retryLoop, dif_neg (by omega)]
  exact ⟨rfl, rfl⟩

/-- C4 witness: the amended behaviour at `retries = -1`. -/
theorem claim_c4_witness :
    (retryRun cfgNeg opAlwaysFail randZero).invocations = 0 ∧
    (retryRun cfgNeg opAlwaysFail randZero).result =
      Except.error RErr.exhausted :=
  claim_c4 cfgNeg opAlwaysFail randZero (by norm_num [cfgNeg])

/-- C5: `retry` resolves with the generic exhaustion error (message
"Retry attempts exhausted.") exactly when the loop condition fails without
an explicit return, which happens precisely for `retries < 0`; in that case
the operation is never invoked. -/
theorem claim_c5 {E A : Type} (cfg : RetryConfig E)
    (op : Nat → AttemptBehavior E A) (rand : Nat → ℚ) :
    ((retryRun cfg op rand).result = Except.error RErr.exhausted ↔
      cfg.retries < 0) ∧
    (cfg.retries < 0 → (retryRun cfg op rand).invocations = 0) ∧
    (RErr.exhausted : RErr E).message = some "Retry attempts exhausted." := by
  refine ⟨⟨?_, ?_⟩, ?_, rfl⟩
  · intro hres
    by_contra hneg
    push_neg at hneg
    exact retryLoop_result_ne_exhausted cfg op rand cfg.retries.toNat 0
      cfg.delay (by omega) hres
  · intro h
    rw [retryRun, retryLoop, dif_neg (by omega)]
  · intro h
    rw [retryRun, retryLoop, dif_neg (by omega)]

/-- C5 witness: the exhaustion characterization at `retries = -1`. -/
theorem claim_c5_witness :
    ((retryRun cfgNeg opAlwaysFail randZero).result =
        Except.error RErr.exhausted ↔ cfgNeg.retries < 0) ∧
    ((retryRun cfgNeg opAlwaysFail randZero).invocations = 0) ∧
    (RErr.exhausted : RErr Unit).message = some "Retry attempts exhausted." :=
  ⟨(claim_c5 cfgNeg opAlwaysFail randZero).1,
   (claim_c5 cfgNeg opAlwaysFail randZero).2.1 (by norm_num [cfgNeg]),
   (claim_c5 cfgNeg opAlwaysFail randZero).2.2⟩

/-- C6: with `retries ≥ 1`, a permanently failing operation whose
`shouldRetry` returns false on attempt 1 is invoked exactly once, the
attempt-1 error propagates immediately, no delay is waited and `onRetry`
is never called. -/
theorem claim_c6 {E A : Type} (cfg : RetryConfig E)
    (op : Nat → AttemptBehavior E A) (rand : Nat → ℚ) (errs : Nat → RErr E)
    (hret : 1 ≤ cfg.retries)
    (hop : ∀ n, racedOutcome cfg.timeout (op n) = Except.error (errs n))
    (hsr : cfg.shouldRetry (errs 1) 1 = false) :
    retryRun cfg op rand = ⟨Except.error (errs 1), 1, [], []⟩ := by
  rw [retryRun, retryLoop, dif_pos (by omega)]
  simp only [Nat.zero_add, hop 1]
  have hlast : decide ((0 : Int) + 1 > cfg.retries) = false := by
    simp; omega
  simp [hlast, hsr]

/-- C6 witness: an always-declining predicate stops after one attempt. -/
theorem claim_c6_witness :
    retryRun cfgC6 opAlwaysFail randZero =
      ⟨Except.error (RErr.opError ()), 1, [], []⟩ :=
  claim_c6 cfgC6 opAlwaysFail randZero (fun _ => RErr.opError ())
    (by norm_num [cfgC6]) (fun _ => rfl) rfl

/-- C7: a successful attempt returns its value immediately (one invocation,
no wait, no `onRetry` call from that point on), and in particular an
operation failing on attempt 1 and succeeding on attempt 2 under
`retries = 5` yields exactly one `onRetry` call, with attempt number 1, two
invocations and a single wait before the successful attempt. -/
theorem claim_c7 :
    (∀ (E A : Type) (cfg : RetryConfig E) (op : Nat → AttemptBehavior E A)
        (rand : Nat → ℚ) (a : Nat) (d : ℚ) (v : A),
        (a : Int) ≤ cfg.retries →
        racedOutcome cfg.timeout (op (a + 1)) = Except.ok v →
        retryLoop cfg op rand a d = ⟨Except.ok v, 1, [], []⟩) ∧
    (∀ (E A : Type) (cfg : RetryConfig E) (op : Nat → AttemptBehavior E A)
        (rand : Nat → ℚ) (e : RErr E) (v : A),
        cfg.retries = 5 →
        racedOutcome cfg.timeout (op 1) = Except.error e →
        racedOutcome cfg.timeout (op 2) = Except.ok v →
        cfg.shouldRetry e 1 = true →
        retryRun cfg op rand =
          ⟨Except.ok v, 2, [computeWait cfg cfg.delay (rand 1)], [(e, 1)]⟩) := by
  constructor
  · intro E A cfg op rand a d v ha hok
    exact retryLoop_success cfg op rand a d v ha hok
  · intro E A cfg op rand e v hret hop1 hop2 hsr
    rw [retryRun, retryLoop, dif_pos (by omega)]
    simp only [Nat.zero_add, hop1]
    have hlast : decide ((0 : Int) + 1 > cfg.retries) = false := by
      simp; omega
    have hle : ((1 : Nat) : Int) ≤ cfg.retries := by rw [hret]; norm_num
    have hrest := retryLoop_success cfg op rand 1
      (computeWait cfg cfg.delay (rand 1)) v hle (by simpa using hop2)
    simp [hlast, hsr, hrest]
    omega

/-- C7 witness: both parts at a concrete fail-once-then-succeed run. -/
theorem claim_c7_witness :
    (retryLoop cfgC7 opFailThenOk randZero 1 0 =
      ⟨Except.ok (), 1, [], []⟩) ∧
    (retryRun cfgC7 opFailThenOk randZero =
      ⟨Except.ok (), 2, [computeWait cfgC7 cfgC7.delay (randZero 1)],
        [(RErr.opError (), 1)]⟩) :=
  ⟨claim_c7.1 Unit Unit cfgC7 opFailThenOk randZero 1 0 ()
    (by norm_num [cfgC7]) rfl,
   claim_c7.2 Unit Unit cfgC7 opFailThenOk randZero (RErr.opError ()) ()
    rfl rfl rfl rfl⟩

/-- C8: with `jitter = true` and any random sample in `[0, 1)`, the computed
wait duration lies within `[0.8, 1.2]` times its (non-negative) pre-jitter
value, inclusive. -/
theorem claim_c8 {E : Type} (cfg : RetryConfig E) (d r : ℚ)
    (hj : cfg.jitter = true) (hr0 : 0 ≤ r) (hr1 : r < 1)
    (hw : 0 ≤ preJitterDelay cfg d) :
    (4 / 5 : ℚ) * preJitterDelay cfg d ≤ computeWait cfg d r ∧
    computeWait cfg d r ≤ (6 / 5 : ℚ) * preJitterDelay cfg d := by
  rw [computeWait, if_pos hj, jitterFactor]
  constructor <;> nlinarith [hw, hr0, hr1]

/-- C8 witness: the jitter bounds at a concrete configuration and sample. -/
theorem claim_c8_witness :
    (4 / 5 : ℚ) * preJitterDelay cfgC8 100 ≤
      computeWait cfgC8 100 (1 / 2) ∧
    computeWait cfgC8 100 (1 / 2) ≤
      (6 / 5 : ℚ) * preJitterDelay cfgC8 100 :=
  claim_c8 cfgC8 100 (1 / 2) rfl (by norm_num) (by norm_num)
    (by norm_num [preJitterDelay, cfgC8])

/-- C9: with a positive `timeout`, an attempt whose operation takes longer
than the timeout fails with the synthesized timeout error (message
"Operation timed out"), and such failures consume the attempt budget and
feed `shouldRetry`/`onRetry` exactly like operation failures: with the
default predicate and every attempt too slow, `retry` performs `R + 1`
invocations, finally throws the timeout error, and records an `onRetry`
call with the timeout error for each of the `R` retried attempts. -/
theorem claim_c9 :
    (∀ (E A : Type) (t : ℚ) (b : AttemptBehavior E A),
        0 < t → t < b.duration →
        racedOutcome (some t) b = Except.error RErr.timedOut ∧
        (RErr.timedOut : RErr E).message = some "Operation timed out") ∧
    (∀ (E A : Type) (cfg : RetryConfig E) (op : Nat → AttemptBehavior E A)
        (rand : Nat → ℚ) (R : Nat) (t : ℚ),
        cfg.retries = (R : Int) → cfg.timeout = some t → 0 < t →
        (∀ n, t < (op n).duration) →
        cfg.shouldRetry = defaultShouldRetry →
        (retryRun cfg op rand).invocations = R + 1 ∧
        (retryRun cfg op rand).result = Except.error RErr.timedOut ∧
        (retryRun cfg op rand).onRetryCalls =
          onRetrySeq (fun _ => RErr.timedOut) 0 R) := by
  constructor
  · intro E A t b ht hd
    refine ⟨?_, rfl⟩
    rw [racedOutcome]
    rw [if_pos ⟨ne_of_gt ht, hd⟩]
  · intro E A cfg op rand R t hret htmo ht hslow hsr
    have hop : ∀ n, racedOutcome cfg.timeout (op n) =
        Except.error (RErr.timedOut : RErr E) := by
      intro n
      rw [htmo, racedOutcome, if_pos ⟨ne_of_gt ht, hslow n⟩]
    have h := retryLoop_allFail cfg op rand (fun _ => RErr.timedOut) hop
      (by simp [hsr, defaultShouldRetry]) R 0 cfg.delay (by omega)
    rw [retryRun, h]
    simp

/-- C9 witness: a 100 ms operation under a 50 ms timeout and two retries. -/
theorem claim_c9_witness :
    (racedOutcome (some 50) (opSlow 1) = Except.error RErr.timedOut ∧
      (RErr.timedOut : RErr Unit).message = some "Operation timed out") ∧
    ((retryRun cfgC9 opSlow randZero).invocations = 3 ∧
      (retryRun cfgC9 opSlow randZero).result =
        Except.error RErr.timedOut ∧
      (retryRun cfgC9 opSlow randZero).onRetryCalls =
        onRetrySeq (fun _ => RErr.timedOut) 0 2) :=
  ⟨claim_c9.1 Unit Unit 50 (opSlow 1) (by norm_num)
    (by norm_num [opSlow]),
   claim_c9.2 Unit Unit cfgC9 opSlow randZero 2 50 rfl rfl (by norm_num)
    (fun n => by norm_num [opSlow]) rfl⟩

/-- C10: with `retries = R ≥ 0`, the value of `shouldRetry` at the final
permitted attempt `R + 1` is never consulted — replacing the predicate by
any other one agreeing on attempts `1..R` leaves the entire behaviour
unchanged — and every `onRetry` call carries an attempt number between 1
and `R`, so neither hook fires for a failing final attempt. -/
theorem claim_c10 {E A : Type} (cfg : RetryConfig E)
    (sr2 : RErr E → Nat → Bool) (op : Nat → AttemptBehavior E A)
    (rand : Nat → ℚ) (hR : 0 ≤ cfg.retries)
    (hagree : ∀ (e : RErr E) (n : Nat),
      ((n : Int) ≤ cfg.retries) → cfg.shouldRetry e n = sr2 e n) :
    retryRun cfg op rand = retryRun { cfg with shouldRetry := sr2 } op rand ∧
    ∀ p ∈ (retryRun cfg op rand).onRetryCalls,
      1 ≤ p.2 ∧ (p.2 : Int) ≤ cfg.retries := by
  constructor
  · rw [retryRun, retryRun]
    rw [show ({ cfg with shouldRetry := sr2 } : RetryConfig E).delay =
      cfg.delay from rfl]
    exact retryLoop_shouldRetry_congr cfg sr2 op rand hagree
      cfg.retries.toNat 0 cfg.delay (by omega)
  · intro p hp
    have := retryLoop_onRetry_bounds cfg op rand cfg.retries.toNat 0
      cfg.delay (by omega) p (by rw [retryRun] at hp; exact hp)
    exact ⟨this.1, this.2⟩

/-- C10 witness: the independence and bounds at `retries = 3` with a
predicate that agrees with the default on attempts `≤ 3` but differs at
attempt 4. -/
theorem claim_c10_witness :
    (retryRun cfgC1 opAlwaysFail randZero =
      retryRun { cfgC1 with shouldRetry := srLe3 } opAlwaysFail randZero) ∧
    ∀ p ∈ (retryRun cfgC1 opAlwaysFail randZero).onRetryCalls,
      1 ≤ p.2 ∧ (p.2 : Int) ≤ cfgC1.retries :=
  claim_c10 cfgC1 srLe3 opAlwaysFail randZero (by norm_num [cfgC1])
    (fun e n h => by
      simp [cfgC1, srLe3, show ((n : Int) ≤ 3) from h])

end RetrySimple
